import Mathlib

/-
Shallow embedding of the reader service core:
  - the browser pool bounds and the scrap snapshot generator
    (src/backend/functions/src/utils/pdf.ts, class PuppeteerControl),
  - the nightly page-cache cruncher
    (src/backend/functions/src/cloud-functions/data-crunching.ts),
  - the chatWithReader interrogator loop and expandMarkdown
    (src/backend/functions/src/cloud-functions/fixer.ts, class InterrogatorHost).

External collaborators (puppeteer, the LLM stream, object storage, the
platform URL parser, the streaming JSON parser library living outside the
sources) are represented as explicit oracle parameters; everything the
repository itself computes is translated directly from the TypeScript.
-/

/-! ### Browser pool (utils/pdf.ts, PuppeteerControl.pagePool) -/

/--
Pool max as the source computes it:
  max: 1 + Math.floor(os.freemem() / 1024 * 1024 * 1024)
JavaScript evaluates the expression left to right, so it is
((freemem / 1024) * 1024) * 1024.  Division of an integer by 1024 is exact
in IEEE doubles (an exponent shift), as are the two multiplications for any
realistic freemem, so the exact rational value is what Math.floor sees.
-/
def pagePoolMax (freemem : Nat) : Nat :=
  1 + Nat.floor ((freemem : ℚ) / 1024 * 1024 * 1024)

/-- Pool max as the spec words it: 1 + the floor of free memory in GiB. -/
def pagePoolMaxIntended (freemem : Nat) : Nat :=
  1 + freemem / (1024 * 1024 * 1024)

/-- Pool min as the source sets it: min: 1. -/
def pagePoolMin : Nat := 1

/-! ### The scrap generator (utils/pdf.ts, PuppeteerControl.scrap)

A page run is the observable behaviour of the browser page during one
scrap call: the sequence of snapshot values the in-page script reports
before the navigation promise settles (null parses included, as the
in-page fallback timer reports giveSnapshot() even when it is null), how
the navigation settles, and the screenshot bytes produced per iteration.
-/

/-- One yielded item: { snapshot, screenshot }.  snapshot is none when the
in-page Readability parse returned null. -/
structure PageResultM where
  snapshot : Option String
  screenshot : String
deriving DecidableEq, Repr

/-- How page.goto(url, { waitUntil: networkidle0, timeout: 30000 }) settles:
either it resolves (and the post-settle page.evaluate Readability parse
yields finalParse, null possible), or it rejects with an error. -/
inductive NavOutcome where
  | success (finalParse : Option String)
  | failure (err : String)
deriving DecidableEq, Repr

/-- The oracle describing one page load as scrap observes it. -/
structure ScrapRun where
  deliveries : List (Option String)
  outcome : NavOutcome
  screenshots : Nat → String

/--
The host-side snapshot handler hdl: it ignores a delivery identical to the
one currently held (snapshot === s) and otherwise stores it and resolves
the rendezvous.  last = none models the initial undefined snapshot
variable, which differs from every delivered value (null included).
-/
def dedupDeliveries : List (Option String) → Option (Option String) → List (Option String)
  | [], _ => []
  | s :: rest, last =>
    if last = some s then dedupDeliveries rest last
    else s :: dedupDeliveries rest (some s)

/--
The yields of the scrap loop, one interleaving step per delivery: each
deduplicated delivery is raced, screenshotted and yielded; when the
navigation promise settles first the loop awaits it.  On success it
re-evaluates the Readability parse in the page and yields that as the
final item; on failure the await throws and nothing further is yielded.
-/
def scrapYields (run : ScrapRun) : List PageResultM :=
  let ds := dedupDeliveries run.deliveries none
  let progressive := ds.mapIdx (fun i s => ⟨s, run.screenshots i⟩)
  match run.outcome with
  | NavOutcome.success fp => progressive ++ [⟨fp, run.screenshots ds.length⟩]
  | NavOutcome.failure _ => progressive

/-- What the consumer of the generator observes in total. -/
structure ScrapOutcomeM where
  yields : List PageResultM
  raised : Option String
  swallowedErr : Option String
  ctxDestroyed : Bool
deriving Repr

/--
The scrap generator as written: the whole loop body sits in a
try / catch (_err) void 0 / finally block, so every internal error
(navigation rejection included) is caught and discarded, the generator
simply stops yielding, and the finally path destroys the context.
raised is what escapes to the consumer: always nothing.
-/
def scrap (run : ScrapRun) : ScrapOutcomeM :=
  { yields := scrapYields run
    raised := none
    swallowedErr :=
      match run.outcome with
      | NavOutcome.failure e => some e
      | NavOutcome.success _ => none
    ctxDestroyed := true }

/-! ### Nightly cruncher (cloud-functions/data-crunching.ts) -/

/-- pageCacheCrunchingBatchSize = 10000 -/
def pageCacheCrunchingBatchSize : Nat := 10000

/-- rev = 2 -/
def crunchRev : Nat := 2

/-- The offset label: counter ? counter : '00000'. -/
def offsetLabel (counter : Nat) : String :=
  if counter = 0 then "00000" else toString counter

/-- The object name built per batch:
  pageCacheCrunchingPrefix + /r + rev + / + YYYY-MM-DD + - + label + .jsonl
with pageCacheCrunchingPrefix = crunched-pages. -/
def crunchFileName (day : String) (counter : Nat) : String :=
  "crunched-pages/r" ++ toString crunchRev ++ "/" ++ day ++ "-" ++ offsetLabel counter ++ ".jsonl"

/--
One day of iterPageCacheCrunching.  E tells whether the target file for a
given offset already exists in object storage at the start of the run; n
is the number of records the store holds for the day (the query at offset
o returns min batchSize (n - o) records).  The loop mirrors the source:
compute the name from the counter, advance the counter, skip if the file
exists, stop (advance the day) when a query comes back empty, otherwise
yield the batch.  The result records (offset, batch record count) per
yielded file; fuel bounds the number of batch steps (none = fuel ran out
before the day finished).  Within one run offsets strictly increase, so a
file uploaded by the run is never re-checked by it and a fixed E is
faithful to the live existence check.
-/
def crunchDayLoop (E : Nat → Bool) (n : Nat) : Nat → Nat → Option (List (Nat × Nat))
  | 0, _ => none
  | fuel + 1, counter =>
    if E counter then crunchDayLoop E n fuel (counter + pageCacheCrunchingBatchSize)
    else if counter < n then
      (crunchDayLoop E n fuel (counter + pageCacheCrunchingBatchSize)).map
        (fun rest => (counter, min pageCacheCrunchingBatchSize (n - counter)) :: rest)
    else some []

/--
iterPageCacheCrunching over a window of days: days lists (day string,
record count for that day) in iteration order; E is keyed by day and
offset, standing for existence of crunchFileName day offset in object
storage.  Returns the list of (day, offset, batch record count) the
generator yields, i.e. exactly the files crunchPageCache then uploads.
-/
def iterPageCacheCrunching (E : String → Nat → Bool) (days : List (String × Nat))
    (fuel : Nat) : Option (List (String × Nat × Nat)) :=
  match days with
  | [] => some []
  | (d, n) :: rest =>
    match crunchDayLoop (E d) n fuel 0, iterPageCacheCrunching E rest fuel with
    | some upsD, some upsR => some (upsD.map (fun u => (d, u)) ++ upsR)
    | _, _ => none

/--
crunchCacheRecords writes one JSONL line per record whose snapshot blob
downloads and JSON-parses; a record whose parse throws is logged and
skipped.  Each list entry is the parse-success of one record.
-/
def crunchedLineCount (parsedOk : List Bool) : Nat :=
  (parsedOk.filter (fun b => b)).length

/-! ### chatWithReader (cloud-functions/fixer.ts, InterrogatorHost)

The loop drives one streaming model completion per round.  The model
stream, the streaming JSON parser (JSONParserStream / JSONAccumulation,
whose library source lives outside these source files) and the tool
handlers are oracles: a TurnBehavior records what they deliver during one
round, and the loop logic below is translated from the source.  The
asynchronous interleaving of SSE writes is serialised here as
chunks, n1, n2, snapshots, structured, tool-call block, turn history.
-/

/-- The arguments field of a tool call as the handler inspects it:
a string (to be leniently parsed), an already-parsed object, or a falsy
value (params.arguments || gives the empty object then). -/
inductive ArgVal where
  | strArg (s : String)
  | objArg (o : String)
  | nullArg
deriving DecidableEq, Repr

/-- A tool call as it arrives on the stream (native call event) or inside
the parsed JSON envelope (final.tools entries). -/
structure RawToolCall where
  name : Option String
  arguments : ArgVal
  id : Option String
deriving DecidableEq, Repr

/-- The final top-level JSON object the accumulation delivers at
end-of-stream, projected to the fields the loop reads: intention,
tools (some iff Array.isArray holds) and its JSON.stringify rendering. -/
structure FinalJson where
  intention : Option String
  toolsArr : Option (List RawToolCall)
  stringified : String
deriving DecidableEq, Repr

/-- A history message as the loop builds them. -/
inductive ChatMessage where
  | assistant (content : String)
  | tool (content : String) (toolCallId : String)
  | function (content : String) (name : String)
  | other (role : String) (content : String)
deriving DecidableEq, Repr

/-- One frame written to the outbound SSE stream. -/
inductive SSEvent where
  | chunk (s : String)
  | n1 (s : String)
  | n2 (s : String)
  | snapshot (s : String)
  | structured (f : FinalJson)
  | text (s : String)
  | call (name : String) (args : String) (id : Option String)
  | ret (name : String) (content : String) (id : Option String)
  | injectHistory (m : ChatMessage)
  | history (m : ChatMessage)
  | error (s : String)
deriving DecidableEq, Repr

/-- What the oracles deliver during one round: the text chunks streamed,
the n1/n2 prefix hooks, the object snapshots and the final object from the
JSON accumulation, native call events, a stream error if the round aborts,
and the history object the model stream may attach (Reflect.get history). -/
structure TurnBehavior where
  chunks : List String
  n1 : Option String
  n2 : Option String
  snapshots : List String
  finalJson : Option FinalJson
  nativeCalls : List RawToolCall
  streamError : Option String
  historyOverride : Option ChatMessage

/-- The per-request configuration the loop reads: whether the functions
mixin carries descriptors, the model capabilities, the trimmed base
messages, the lenient argument parser and the tool registry (exec result,
or the error a handler throws, already in its template-string form). -/
structure ChatConfig where
  functionsAvailable : Bool
  functionCallingSupported : Bool
  systemSupported : Bool
  trimmedMessages : List ChatMessage
  parseArgs : String → String
  tools : String → String → Except String String

/-- softwareFunctionCallingInAction for a round entered with
callRoundsLeft rounds remaining: tools are attached only when
functionsMixin.functions exists and callRoundsLeft > 1, and the pseudo
path additionally needs a model without native function calling that
accepts a system prompt. -/
def turnSoftwareFC (cfg : ChatConfig) (callRoundsLeft : Nat) : Bool :=
  cfg.functionsAvailable && decide (1 < callRoundsLeft) &&
    !cfg.functionCallingSupported && cfg.systemSupported

/-- The guard inside the final handler: intention is USE_TOOLS, tools is
an array, and the pseudo function calling flag is set. -/
def turnPseudoFC (cfg : ChatConfig) (callRoundsLeft : Nat) (b : TurnBehavior) : Bool :=
  turnSoftwareFC cfg callRoundsLeft &&
    (match b.finalJson with
     | some f => (f.intention == some "USE_TOOLS") && f.toolsArr.isSome
     | none => false)

/-- The calls the final handler re-emits on the stream when the pseudo
path is active. -/
def turnJsonCalls (cfg : ChatConfig) (callRoundsLeft : Nat) (b : TurnBehavior) : List RawToolCall :=
  if turnPseudoFC cfg callRoundsLeft b then (b.finalJson.bind FinalJson.toolsArr).getD []
  else []

/-- A dispatched call, after the handler has dropped calls with a falsy
name (if !params?.name return). -/
structure ToolCallInfo where
  name : String
  args : ArgVal
  id : Option String
deriving DecidableEq, Repr

/-- Every call event of the round, native ones first, then the ones
synthesised from the JSON envelope, with falsy-named ones dropped. -/
def turnToolCalls (cfg : ChatConfig) (callRoundsLeft : Nat) (b : TurnBehavior) : List ToolCallInfo :=
  (b.nativeCalls ++ turnJsonCalls cfg callRoundsLeft b).filterMap
    (fun tc => tc.name.bind (fun n => if n = "" then none else some ⟨n, tc.arguments, tc.id⟩))

/-- parsedArgs: a string is parsed leniently, an object passes through,
anything falsy becomes the empty object. -/
def parsedArgsOf (parseArgs : String → String) : ArgVal → String
  | ArgVal.strArg s => parseArgs s
  | ArgVal.objArg o => o
  | ArgVal.nullArg => "\x7b\x7d"

/-- The history item appended per tool call: role tool with tool_call_id
when the call carries an id, role function with the tool name otherwise. -/
def toolHistoryItem (tc : ToolCallInfo) (result : String) : ChatMessage :=
  match tc.id with
  | some cid => ChatMessage.tool result cid
  | none => ChatMessage.function result tc.name

/-- One waitList task: write the call event and the progress text, execute
the tool, write the return event on success; on a throw the error becomes
the string result and no return event is written.  Either way the history
item is appended and injectHistory is written; the promise only resolves,
never rejects. -/
def runOneCall (parseArgs : String → String) (tools : String → String → Except String String)
    (tc : ToolCallInfo) : List SSEvent × ChatMessage :=
  let pargs := parsedArgsOf parseArgs tc.args
  match tools tc.name pargs with
  | Except.ok r =>
    ([SSEvent.call tc.name pargs tc.id,
      SSEvent.text ("Calling tool " ++ tc.name ++ " with arguments: " ++ pargs),
      SSEvent.ret tc.name r tc.id,
      SSEvent.injectHistory (toolHistoryItem tc r)],
     toolHistoryItem tc r)
  | Except.error e =>
    ([SSEvent.call tc.name pargs tc.id,
      SSEvent.text ("Calling tool " ++ tc.name ++ " with arguments: " ++ pargs),
      SSEvent.injectHistory (toolHistoryItem tc e)],
     toolHistoryItem tc e)

/-- All waitList tasks of the round, in dispatch order. -/
def runCalls (parseArgs : String → String) (tools : String → String → Except String String) :
    List ToolCallInfo → List SSEvent × List ChatMessage
  | [] => ([], [])
  | tc :: rest =>
    let one := runOneCall parseArgs tools tc
    let more := runCalls parseArgs tools rest
    (one.1 ++ more.1, one.2 :: more.2)

/-- What one round produces: the SSE frames written, the messages appended
to tailMessages, and the keepLooping flag after the round. -/
structure TurnOutputS where
  events : List SSEvent
  newTail : List ChatMessage
  keepLooping : Bool

/--
One round of the while loop.  On a stream error: keepLooping is cleared
and the stream is ended with an error frame, so the later structured and
history writes are dropped.  Otherwise: the streamed chunks, prefix hooks
and snapshots are forwarded; the final object (when present) is written as
structured; under the pseudo path the assistant JSON message is pushed and
the envelope calls are re-emitted; every dispatched call runs as a
waitList task; if no call ran keepLooping is cleared; finally the turn
history is pushed (outside the pseudo path) and written as injectHistory
when looping continues, or written as the terminal history frame.
-/
def turnOutput (cfg : ChatConfig) (callRoundsLeft : Nat) (b : TurnBehavior) : TurnOutputS :=
  match b.streamError with
  | some e => ⟨b.chunks.map SSEvent.chunk ++ [SSEvent.error e], [], false⟩
  | none =>
    let sfc := turnSoftwareFC cfg callRoundsLeft
    let streamEvs := b.chunks.map SSEvent.chunk
      ++ (match b.n1 with | some t => [SSEvent.n1 t] | none => [])
      ++ (match b.n2 with | some t => [SSEvent.n2 t] | none => [])
      ++ b.snapshots.map SSEvent.snapshot
    let structuredEvs :=
      match b.finalJson with
      | some f => [SSEvent.structured f]
      | none => []
    let assistantPush : List ChatMessage :=
      if turnPseudoFC cfg callRoundsLeft b then
        (b.finalJson.map (fun f => ChatMessage.assistant f.stringified)).toList
      else []
    let calls := turnToolCalls cfg callRoundsLeft b
    let rc := runCalls cfg.parseArgs cfg.tools calls
    let anyCalls := !calls.isEmpty
    let resp := String.join b.chunks
    let history := b.historyOverride.getD (ChatMessage.assistant resp)
    ⟨streamEvs ++ structuredEvs ++ rc.1 ++
       (if anyCalls then [SSEvent.injectHistory history] else [SSEvent.history history]),
     assistantPush ++ rc.2 ++ (if anyCalls && !sfc then [history] else []),
     anyCalls⟩

/-- The loop state threaded between rounds; turnsLog records, per round,
the thisOptions.messages list the model was invoked with. -/
structure ChatState where
  tailMessages : List ChatMessage
  events : List SSEvent
  turnsLog : List (List ChatMessage)

/-- Run one round against the state: the model sees
trimmedMessages ++ tailMessages, and the round output is appended. -/
def runTurn (cfg : ChatConfig) (callRoundsLeft : Nat) (b : TurnBehavior) (st : ChatState) :
    ChatState × Bool :=
  let o := turnOutput cfg callRoundsLeft b
  ({ tailMessages := st.tailMessages ++ o.newTail
     events := st.events ++ o.events
     turnsLog := st.turnsLog ++ [cfg.trimmedMessages ++ st.tailMessages] },
   o.keepLooping)

/-- while (keepLooping && callRoundsLeft > 0): the remaining round budget
is the recursion fuel, exactly the callRoundsLeft counter (decremented
once per round by the source). -/
def chatLoop (cfg : ChatConfig) (behaviors : Nat → TurnBehavior) :
    Nat → Nat → ChatState → ChatState
  | 0, _, st => st
  | fuel + 1, i, st =>
    let r := runTurn cfg (fuel + 1) (behaviors i) st
    if r.2 then chatLoop cfg behaviors fuel (i + 1) r.1 else r.1

/-- The full chatWithReader event trace: callRoundsLeft starts at
maxAdditionalTurns, the loop runs, and the SSE stream is ended.  An empty
trace is a stream ended with no frame ever written. -/
def chatWithReader (cfg : ChatConfig) (behaviors : Nat → TurnBehavior)
    (maxAdditionalTurns : Nat) : List SSEvent :=
  (chatLoop cfg behaviors maxAdditionalTurns 0 ⟨[], [], []⟩).events

/-- The maxAdditionalTurns parameter validator: turns >= 0 && turns <= 50. -/
def maxAdditionalTurnsValidate (turns : Int) : Bool :=
  decide (0 ≤ turns) && decide (turns ≤ 50)

/-- The declared default of maxAdditionalTurns. -/
def maxAdditionalTurnsDefault : Nat := 5

/-- Whether a frame is a structured frame. -/
def isStructuredFrame : SSEvent → Bool
  | SSEvent.structured _ => true
  | _ => false

/-- Whether a frame is a call frame. -/
def isCallFrame : SSEvent → Bool
  | SSEvent.call _ _ _ => true
  | _ => false

/-- Whether a frame is a return frame. -/
def isReturnFrame : SSEvent → Bool
  | SSEvent.ret _ _ _ => true
  | _ => false

/-- Whether a frame is an error frame. -/
def isErrorFrame : SSEvent → Bool
  | SSEvent.error _ => true
  | _ => false

/-- Count of structured frames in a trace. -/
def countStructured (l : List SSEvent) : Nat := l.countP isStructuredFrame

/-- Count of call frames in a trace. -/
def countCallEvents (l : List SSEvent) : Nat := l.countP isCallFrame

/-- Count of return frames in a trace. -/
def countReturnEvents (l : List SSEvent) : Nat := l.countP isReturnFrame

/-- Count of error frames in a trace. -/
def countErrorEvents (l : List SSEvent) : Nat := l.countP isErrorFrame

/-! ### expandMarkdown (cloud-functions/fixer.ts, InterrogatorHost.expandMarkdown)

The scanning loop repeatedly runs the global regex matching an image
token: bang, open bracket, lazy dot-star alt, close bracket, open paren,
lazy dot-star url, close paren.  The matcher below implements exactly
that search: the dot class excludes line terminators, lazy groups prefer
the shortest text, and a failed continuation backtracks to a longer alt.
-/

/-- The regex dot: any character except a JavaScript line terminator. -/
def isDotChar (c : Char) : Bool :=
  !(c == '\n' || c == '\r' || c == Char.ofNat 0x2028 || c == Char.ofNat 0x2029)

/-- Lazy match of the url group followed by the closing paren, on the text
after the open paren: the shortest dot-only prefix ending at a close
paren.  Returns the url characters and the rest after the paren. -/
def matchUrl : List Char → Option (List Char × List Char)
  | [] => none
  | c :: rest =>
    if c = ')' then some ([], rest)
    else if isDotChar c then (matchUrl rest).map (fun p => (c :: p.1, p.2))
    else none

/-- Lazy match of the alt group, the close-bracket open-paren delimiter
and then the url group, on the text after the open bracket.  The lazy alt
takes the earliest delimiter whose url continuation also matches, and
backtracks past it otherwise. -/
def matchAlt : List Char → Option (List Char × List Char × List Char)
  | [] => none
  | c :: rest =>
    let cont :=
      if isDotChar c then (matchAlt rest).map (fun t => (c :: t.1, t.2.1, t.2.2))
      else none
    if c = ']' then
      match rest with
      | '(' :: rest2 =>
        match matchUrl rest2 with
        | some (u, r) => some ([], u, r)
        | none => cont
      | _ => cont
    else cont

/-- regex.exec from the start of the given text: the earliest position at
which the image token matches.  Returns the match index, the alt and url
groups, and the text after the match (from which lastIndex continues). -/
def findMatch : List Char → Option (Nat × List Char × List Char × List Char)
  | [] => none
  | c :: rest =>
    let skip := (findMatch rest).map (fun q => (q.1 + 1, q.2))
    if c = '!' then
      match rest with
      | '[' :: rest2 =>
        match matchAlt rest2 with
        | some (a, u, r) => some (0, a, u, r)
        | none => skip
      | _ => skip
    else skip

/-- The whole matched token match[0], reassembled from its groups. -/
def imageTokenStr (alt url : String) : String :=
  "![" ++ alt ++ "](" ++ url ++ ")"

/-- A slice of the input produced by the scanning loop: plain text between
matches, or one image match. -/
inductive MdPiece where
  | text (s : String)
  | image (alt url whole : String)
deriving DecidableEq, Repr

/-- The scanning loop: push the text before the match when nonempty, push
the match, continue after it.  Every match consumes at least five
characters, so fuel = input length + 1 (used by expandMarkdown) never runs
out; the fuel-exhausted branch mirrors the loop-exit branch. -/
def scanPieces : Nat → List Char → List MdPiece
  | 0, s => if s.isEmpty then [] else [MdPiece.text (String.mk s)]
  | fuel + 1, s =>
    match findMatch s with
    | none => if s.isEmpty then [] else [MdPiece.text (String.mk s)]
    | some (p, a, u, r) =>
      (if 0 < p then [MdPiece.text (String.mk (s.take p))] else [])
        ++ MdPiece.image (String.mk a) (String.mk u)
             (imageTokenStr (String.mk a) (String.mk u))
        :: scanPieces fuel r

/-- The result of the platform URL constructor new URL(imageUrl, file base),
projected to the fields expandMarkdown reads. -/
structure JsURL where
  protocol : String
  pathname : String
  href : String
deriving DecidableEq, Repr

/-- A prompt chunk: a string, a URL object, or file bytes. -/
inductive PromptChunk where
  | str (s : String)
  | url (u : JsURL)
  | bytes (b : String)
deriving DecidableEq, Repr

/-- The trailing merge pass: consecutive strings are concatenated into
tempString, which is flushed (when nonempty) before any non-string chunk
and at the end. -/
def mergeChunks : List PromptChunk → String → List PromptChunk
  | [], temp => if temp = "" then [] else [PromptChunk.str temp]
  | PromptChunk.str s :: rest, temp => mergeChunks rest (temp ++ s)
  | c :: rest, temp =>
    (if temp = "" then [] else [PromptChunk.str temp]) ++ c :: mergeChunks rest ""

/-- No two adjacent chunks of a list are both strings. -/
def noAdjacentStr : List PromptChunk → Bool
  | PromptChunk.str _ :: PromptChunk.str _ :: _ => false
  | _ :: rest => noAdjacentStr rest
  | [] => true

/-- The chunks one image match contributes: resolve the url against the
file base; a file-scheme url is looked up in the uploaded-file map under
its raw, percent-decoded and percent-encoded pathname (producing the file
bytes, or nothing when absent); any other scheme contributes the URL
object; a url the constructor throws on contributes the raw token.  The
raw token is appended again after the resolved form. -/
def expandImageMatch (parseURL : String → Option JsURL)
    (decodeURIFn encodeURIFn : String → String) (files : String → Option String)
    (url whole : String) : List PromptChunk :=
  (match parseURL url with
   | some uo =>
     if uo.protocol = "file:" then
       let origFileName := uo.pathname.drop 1
       match files origFileName with
       | some f => [PromptChunk.bytes f]
       | none =>
         match files (decodeURIFn origFileName) with
         | some f => [PromptChunk.bytes f]
         | none =>
           match files (encodeURIFn origFileName) with
           | some f => [PromptChunk.bytes f]
           | none => []
     else [PromptChunk.url uo]
   | none => [PromptChunk.str whole])
  ++ [PromptChunk.str whole]

/-- expandMarkdown: scan the input for image tokens, expand each match,
keep the surrounding text, and merge consecutive strings.  The platform
pieces (URL constructor, decodeURI, encodeURI) and the uploaded-file map
are oracle parameters. -/
def expandMarkdown (parseURL : String → Option JsURL)
    (decodeURIFn encodeURIFn : String → String) (files : String → Option String)
    (input : String) : List PromptChunk :=
  let pieces := scanPieces (input.length + 1) input.toList
  let result := pieces.flatMap (fun p =>
    match p with
    | MdPiece.text s => [PromptChunk.str s]
    | MdPiece.image _ u w => expandImageMatch parseURL decodeURIFn encodeURIFn files u w)
  mergeChunks result ""

/-! ### Concrete scenarios -/

/-- The JSON envelope of the spec scenario, as the model streams it. -/
def useToolsEnvelope : String :=
  "\x7b\"intention\":\"USE_TOOLS\",\"thoughts\":\"x\",\"tools\":[\x7b\"name\":\"browse\",\"arguments\":\x7b\"url\":\"https://a.test\"\x7d,\"id\":\"T1\"\x7d]\x7d"

/-- The browse tool call carried inside that envelope. -/
def browseToolCallT1 : RawToolCall :=
  { name := some "browse"
    arguments := ArgVal.objArg "\x7b\"url\":\"https://a.test\"\x7d"
    id := some "T1" }

/-- The parsed final object the accumulation delivers for that envelope. -/
def useToolsFinal : FinalJson :=
  { intention := some "USE_TOOLS"
    toolsArr := some [browseToolCallT1]
    stringified := useToolsEnvelope }

/-- A request against a model without native function calling but with a
system prompt (the pseudo function calling configuration), with the tools
mixin available and a browse tool that returns content. -/
def chatCfgPseudo : ChatConfig :=
  { functionsAvailable := true
    functionCallingSupported := false
    systemSupported := true
    trimmedMessages := []
    parseArgs := id
    tools := fun _ _ => Except.ok "browsed content" }

/-- The round in which the model streams the envelope and finishes. -/
def useToolsTurn : TurnBehavior :=
  { chunks := [useToolsEnvelope]
    n1 := none
    n2 := none
    snapshots := []
    finalJson := some useToolsFinal
    nativeCalls := []
    streamError := none
    historyOverride := none }

/-- A round in which the model answers in plain text and finishes. -/
def plainAnswerTurn : TurnBehavior :=
  { chunks := ["Example Domain"]
    n1 := none
    n2 := none
    snapshots := []
    finalJson := none
    nativeCalls := []
    streamError := none
    historyOverride := none }

/-- Model behaviour for the scenario: the envelope round first, a plain
answer on any later round. -/
def c1Behaviors : Nat → TurnBehavior :=
  fun i => if i = 0 then useToolsTurn else plainAnswerTurn

/-- A load whose navigation succeeds but whose post-settle Readability
parse returns null. -/
def scrapRunNullParse : ScrapRun :=
  { deliveries := []
    outcome := NavOutcome.success none
    screenshots := fun _ => "shot" }

/-- A load whose navigation rejects with the 30 s puppeteer timeout. -/
def scrapRunTimeout : ScrapRun :=
  { deliveries := []
    outcome := NavOutcome.failure "TimeoutError: Navigation timeout of 30000 ms exceeded"
    screenshots := fun _ => "shot" }

/-- A load with one progressive snapshot and a successful final parse. -/
def scrapRunOk : ScrapRun :=
  { deliveries := [some "progressive parse"]
    outcome := NavOutcome.success (some "final parse")
    screenshots := fun _ => "shot" }

/-- A request whose every tool handler throws. -/
def chatCfgToolThrows : ChatConfig :=
  { functionsAvailable := true
    functionCallingSupported := true
    systemSupported := true
    trimmedMessages := [ChatMessage.other "user" "hi"]
    parseArgs := id
    tools := fun _ _ => Except.error "Error: kaboom" }

/-- A round in which the model issues one native tool call. -/
def nativeCallTurn : TurnBehavior :=
  { chunks := []
    n1 := none
    n2 := none
    snapshots := []
    finalJson := none
    nativeCalls := [{ name := some "browse", arguments := ArgVal.strArg "\x7b\x7d", id := some "T9" }]
    streamError := none
    historyOverride := none }

/-- The dispatched form of that native call. -/
def nativeCallInfo : ToolCallInfo :=
  { name := "browse", args := ArgVal.strArg "\x7b\x7d", id := some "T9" }

/-! ### Theorems -/

/-- The missing parentheses make the computed pool max equal
1 + freemem * 1024 rather than 1 + freemem / 2^30. -/
theorem pagePoolMax_eq (f : Nat) : pagePoolMax f = 1 + f * 1024 := by
  unfold pagePoolMax
  congr 1
  have h1024 : (1024 : ℚ) ≠ 0 := by norm_num
  rw [div_mul_cancel₀ _ h1024]
  rw [show ((f : ℚ) * 1024) = ((f * 1024 : ℕ) : ℚ) by push_cast; ring]
  exact Nat.floor_natCast _

/-- C2: with one GiB free, the source computes a pool max of
1 + 2^40 where the spec formula gives 2: the expression
freemem / 1024 * 1024 * 1024 associates left, multiplying by 1024 instead
of dividing by 2^30.  The declared minimum really is 1. -/
theorem pagePoolMax_mismatch_eval :
    pagePoolMax 1073741824 = 1099511627777 ∧
    pagePoolMaxIntended 1073741824 = 2 ∧
    pagePoolMax 1073741824 ≠ pagePoolMaxIntended 1073741824 ∧
    pagePoolMin = 1 := by
  have h1 : pagePoolMax 1073741824 = 1099511627777 := by
    rw [pagePoolMax_eq]
  have h2 : pagePoolMaxIntended 1073741824 = 2 := by
    norm_num [pagePoolMaxIntended]
  refine ⟨h1, h2, ?_, rfl⟩
  rw [h1, h2]
  norm_num

/-- C3 counterexample: a run whose navigation succeeds but whose final
in-page Readability parse returns null yields, as its last PageResult, a
null snapshot — the claimed non-nullness fails. -/
theorem scrap_final_snapshot_null_counterexample :
    scrapRunNullParse.outcome = NavOutcome.success none ∧
    ((scrap scrapRunNullParse).yields.getLast?).map PageResultM.snapshot = some none := by
  exact ⟨rfl, rfl⟩

/-- C3 (amended): for every run whose navigation succeeds, at least one
PageResult is yielded, and the last one's snapshot equals the post-settle
in-page Readability parse — which may itself be null. -/
theorem scrap_finality_amended (run : ScrapRun) (fp : Option String)
    (h : run.outcome = NavOutcome.success fp) :
    (scrap run).yields ≠ [] ∧
    ((scrap run).yields.getLast?).map PageResultM.snapshot = some fp := by
  constructor
  · simp [scrap, scrapYields, h]
  · simp [scrap, scrapYields, h, List.getLast?_concat]

/-- C3 witness: the amended finality at a concrete successful run. -/
theorem scrap_finality_amended_witness :
    scrapRunOk.outcome = NavOutcome.success (some "final parse") ∧
    ((scrap scrapRunOk).yields ≠ [] ∧
     ((scrap scrapRunOk).yields.getLast?).map PageResultM.snapshot = some (some "final parse")) :=
  ⟨rfl, scrap_finality_amended scrapRunOk (some "final parse") rfl⟩

/-- C4 counterexample: a navigation timeout is not propagated out of the
scrap generator: the consumer sees a normally-ended, empty sequence and no
error, while the error is absorbed by the generator's catch-all. -/
theorem scrap_navigation_failure_swallowed_counterexample :
    (scrap scrapRunTimeout).raised = none ∧
    (scrap scrapRunTimeout).swallowedErr =
      some "TimeoutError: Navigation timeout of 30000 ms exceeded" ∧
    (scrap scrapRunTimeout).yields = [] :=
  ⟨rfl, rfl, rfl⟩

/-- C4 (amended): every navigation failure is caught inside the scrap
generator: nothing is raised to the consumer, the failure is the swallowed
error, and the context is still destroyed on the finally path. -/
theorem scrap_navigation_failure_swallowed (run : ScrapRun) (e : String)
    (h : run.outcome = NavOutcome.failure e) :
    (scrap run).raised = none ∧
    (scrap run).swallowedErr = some e ∧
    (scrap run).ctxDestroyed = true := by
  refine ⟨rfl, ?_, rfl⟩
  simp [scrap, h]

/-- C4 witness: the swallowing behaviour at the concrete timeout run. -/
theorem scrap_navigation_failure_swallowed_witness :
    scrapRunTimeout.outcome =
      NavOutcome.failure "TimeoutError: Navigation timeout of 30000 ms exceeded" ∧
    ((scrap scrapRunTimeout).raised = none ∧
     (scrap scrapRunTimeout).swallowedErr =
       some "TimeoutError: Navigation timeout of 30000 ms exceeded" ∧
     (scrap scrapRunTimeout).ctxDestroyed = true) :=
  ⟨rfl, scrap_navigation_failure_swallowed scrapRunTimeout _ rfl⟩

/-- Every line of a batch whose records all parse is written. -/
theorem crunchedLineCount_replicate (n : Nat) :
    crunchedLineCount (List.replicate n true) = n := by
  unfold crunchedLineCount
  rw [List.filter_eq_self.mpr, List.length_replicate]
  intro a ha
  rw [List.eq_of_mem_replicate ha]

/-- C8: a day with 24999 records at batch size 10000 yields exactly the
files labelled 00000, 10000 and 20000, with batch sizes 10000, 10000 and
4999; the file names follow prefix/r2/day-label.jsonl with the literal
label 00000 at offset zero; and a fully-parsing batch of 4999 records
produces 4999 lines. -/
theorem crunchPageCache_day24999_files :
    iterPageCacheCrunching (fun _ _ => false) [("2024-03-05", 24999)] 4 =
      some [("2024-03-05", 0, 10000), ("2024-03-05", 10000, 10000), ("2024-03-05", 20000, 4999)] ∧
    crunchFileName "2024-03-05" 0 = "crunched-pages/r2/2024-03-05-00000.jsonl" ∧
    crunchFileName "2024-03-05" 10000 = "crunched-pages/r2/2024-03-05-10000.jsonl" ∧
    crunchFileName "2024-03-05" 20000 = "crunched-pages/r2/2024-03-05-20000.jsonl" ∧
    offsetLabel 0 = "00000" ∧
    crunchedLineCount (List.replicate 4999 true) = 4999 :=
  ⟨by decide, by decide, by decide, by decide, by decide, crunchedLineCount_replicate 4999⟩

/-- C10: with maxAdditionalTurns = 0 the while condition fails at once,
no round runs, and the SSE stream is ended having carried no frame. -/
theorem chatWithReader_zero_turns_empty (cfg : ChatConfig)
    (behaviors : Nat → TurnBehavior) :
    chatWithReader cfg behaviors 0 = [] := rfl

/-- C1 counterexample: in the scenario as stated (maxAdditionalTurns = 1,
the model streams the USE_TOOLS envelope and finishes) the trace carries
no call frame at all, because tool descriptors and the pseudo
function-calling flag are only engaged when callRoundsLeft > 1. -/
theorem chatWithReader_single_turn_no_call_counterexample :
    countCallEvents (chatWithReader chatCfgPseudo c1Behaviors 1) ≠ 1 := by
  decide

/-- C1 (amended): with maxAdditionalTurns = 1 the envelope round emits
exactly one structured frame, zero call frames and zero return frames, and
terminates with the history frame; the claimed call and return of browse
under id T1 appear only when maxAdditionalTurns is at least 2, because
tools are attached only while callRoundsLeft > 1. -/
theorem chatWithReader_single_turn_trace :
    countStructured (chatWithReader chatCfgPseudo c1Behaviors 1) = 1 ∧
    countCallEvents (chatWithReader chatCfgPseudo c1Behaviors 1) = 0 ∧
    countReturnEvents (chatWithReader chatCfgPseudo c1Behaviors 1) = 0 ∧
    (chatWithReader chatCfgPseudo c1Behaviors 1).getLast? =
      some (SSEvent.history (ChatMessage.assistant useToolsEnvelope)) ∧
    countStructured (chatWithReader chatCfgPseudo c1Behaviors 2) = 1 ∧
    countCallEvents (chatWithReader chatCfgPseudo c1Behaviors 2) = 1 ∧
    countReturnEvents (chatWithReader chatCfgPseudo c1Behaviors 2) = 1 ∧
    (SSEvent.call "browse" "\x7b\"url\":\"https://a.test\"\x7d" (some "T1")) ∈
      chatWithReader chatCfgPseudo c1Behaviors 2 ∧
    (SSEvent.ret "browse" "browsed content" (some "T1")) ∈
      chatWithReader chatCfgPseudo c1Behaviors 2 ∧
    (chatWithReader chatCfgPseudo c1Behaviors 2).getLast? =
      some (SSEvent.history (ChatMessage.assistant "Example Domain")) := by
  decide

/-- A predicate false on every image of f counts zero over a mapped list. -/
theorem countP_map_eq_zero {α : Type} (p : SSEvent → Bool) (f : α → SSEvent)
    (hf : ∀ a, p (f a) = false) (l : List α) : (l.map f).countP p = 0 := by
  induction l with
  | nil => rfl
  | cons a rest ih => simp [List.countP_cons, hf, ih]

/-- The waitList block only writes call, text, return and injectHistory
frames, so any predicate false on those counts zero over it. -/
theorem runCalls_countP_zero (pa : String → String)
    (tools : String → String → Except String String) (p : SSEvent → Bool)
    (hcall : ∀ n a i, p (SSEvent.call n a i) = false)
    (htext : ∀ s, p (SSEvent.text s) = false)
    (hret : ∀ n c i, p (SSEvent.ret n c i) = false)
    (hinj : ∀ m, p (SSEvent.injectHistory m) = false) :
    ∀ l, ((runCalls pa tools l).1).countP p = 0 := by
  intro l
  induction l with
  | nil => rfl
  | cons tc rest ih =>
    show ((runOneCall pa tools tc).1 ++ (runCalls pa tools rest).1).countP p = 0
    rw [List.countP_append, ih]
    cases h : tools tc.name (parsedArgsOf pa tc.args) <;>
      simp [runOneCall, h, List.countP_cons, hcall, htext, hret, hinj]

/-- One round writes at most one structured frame: the final handler runs
once per round and writes structured only for an object final. -/
theorem turnOutput_countStructured_le (cfg : ChatConfig) (n : Nat) (b : TurnBehavior) :
    countStructured (turnOutput cfg n b).events ≤ 1 := by
  have hrc := runCalls_countP_zero cfg.parseArgs cfg.tools isStructuredFrame
    (fun _ _ _ => rfl) (fun _ => rfl) (fun _ _ _ => rfl) (fun _ => rfl)
    (turnToolCalls cfg n b)
  have hchunks := countP_map_eq_zero isStructuredFrame SSEvent.chunk (fun _ => rfl) b.chunks
  have hsnaps := countP_map_eq_zero isStructuredFrame SSEvent.snapshot (fun _ => rfl) b.snapshots
  unfold countStructured
  cases hse : b.streamError
  · simp only [turnOutput, hse]
    simp only [List.countP_append, hrc, hchunks, hsnaps]
    cases hn1 : b.n1 <;> cases hn2 : b.n2 <;> cases hf : b.finalJson <;>
      cases hac : (turnToolCalls cfg n b).isEmpty <;>
        simp [List.countP_cons, isStructuredFrame, List.countP_nil]
  · simp [turnOutput, hse, List.countP_append, List.countP_cons, isStructuredFrame, hchunks]

/-- Appending one round to the trace adds at most one structured frame. -/
theorem runTurn_countStructured_le (cfg : ChatConfig) (n : Nat) (b : TurnBehavior)
    (st : ChatState) :
    countStructured ((runTurn cfg n b st).1).events ≤ countStructured st.events + 1 := by
  show countStructured (st.events ++ (turnOutput cfg n b).events) ≤ _
  have h := turnOutput_countStructured_le cfg n b
  unfold countStructured at h ⊢
  rw [List.countP_append]
  omega

/-- The loop runs at most fuel rounds. -/
theorem chatLoop_countStructured_le (cfg : ChatConfig) (behaviors : Nat → TurnBehavior) :
    ∀ (fuel i : Nat) (st : ChatState),
      countStructured ((chatLoop cfg behaviors fuel i st).events) ≤
        countStructured st.events + fuel := by
  intro fuel
  induction fuel with
  | zero => intro i st; simp [chatLoop]
  | succ f ih =>
    intro i st
    rw [chatLoop]
    have h3 := runTurn_countStructured_le cfg (f + 1) (behaviors i) st
    by_cases h2 : (runTurn cfg (f + 1) (behaviors i) st).2 = true
    · rw [if_pos h2]
      have h1 := ih (i + 1) (runTurn cfg (f + 1) (behaviors i) st).1
      omega
    · rw [if_neg h2]
      omega

/-- C5: the trace of a chatWithReader request carries at most
maxAdditionalTurns structured frames; the parameter validator accepts
exactly 0..50 with declared default 5; and an exhausted round counter is a
normal loop exit. -/
theorem chatWithReader_turn_cap :
    (∀ (cfg : ChatConfig) (behaviors : Nat → TurnBehavior) (n : Nat),
        countStructured (chatWithReader cfg behaviors n) ≤ n) ∧
    (∀ t : Int, maxAdditionalTurnsValidate t = true ↔ 0 ≤ t ∧ t ≤ 50) ∧
    maxAdditionalTurnsDefault = 5 ∧
    (∀ (cfg : ChatConfig) (behaviors : Nat → TurnBehavior) (i : Nat) (st : ChatState),
        chatLoop cfg behaviors 0 i st = st) := by
  refine ⟨?_, ?_, rfl, fun _ _ _ _ => rfl⟩
  · intro cfg behaviors n
    have h := chatLoop_countStructured_le cfg behaviors n 0 ⟨[], [], []⟩
    simpa [chatWithReader, countStructured] using h
  · intro t
    simp [maxAdditionalTurnsValidate]

/-- The history item of each dispatched call is among the items the
waitList block appends. -/
theorem runCalls_item_mem (pa : String → String)
    (tools : String → String → Except String String) :
    ∀ (l : List ToolCallInfo) (tc : ToolCallInfo), tc ∈ l →
      (runOneCall pa tools tc).2 ∈ (runCalls pa tools l).2 := by
  intro l
  induction l with
  | nil => intro tc h; cases h
  | cons hd rest ih =>
    intro tc h
    show _ ∈ (runOneCall pa tools hd).2 :: (runCalls pa tools rest).2
    rcases List.mem_cons.mp h with h | h
    · rw [h]; exact List.mem_cons_self _ _
    · exact List.mem_cons_of_mem _ (ih tc h)

/-- The frames of each dispatched call are among the frames the waitList
block writes. -/
theorem runCalls_events_mem (pa : String → String)
    (tools : String → String → Except String String) :
    ∀ (l : List ToolCallInfo) (tc : ToolCallInfo), tc ∈ l →
      ∀ e ∈ (runOneCall pa tools tc).1, e ∈ (runCalls pa tools l).1 := by
  intro l
  induction l with
  | nil => intro tc h; cases h
  | cons hd rest ih =>
    intro tc h e he
    show e ∈ (runOneCall pa tools hd).1 ++ (runCalls pa tools rest).1
    rcases List.mem_cons.mp h with h | h
    · exact List.mem_append_left _ (h ▸ he)
    · exact List.mem_append_right _ (ih tc h e he)

/-- A round that does not abort writes no error frame. -/
theorem turnOutput_countError_eq_zero (cfg : ChatConfig) (n : Nat) (b : TurnBehavior)
    (hse : b.streamError = none) :
    countErrorEvents (turnOutput cfg n b).events = 0 := by
  have hrc := runCalls_countP_zero cfg.parseArgs cfg.tools isErrorFrame
    (fun _ _ _ => rfl) (fun _ => rfl) (fun _ _ _ => rfl) (fun _ => rfl)
    (turnToolCalls cfg n b)
  have hchunks := countP_map_eq_zero isErrorFrame SSEvent.chunk (fun _ => rfl) b.chunks
  have hsnaps := countP_map_eq_zero isErrorFrame SSEvent.snapshot (fun _ => rfl) b.snapshots
  unfold countErrorEvents
  simp only [turnOutput, hse]
  simp only [List.countP_append, hrc, hchunks, hsnaps]
  cases hn1 : b.n1 <;> cases hn2 : b.n2 <;> cases hf : b.finalJson <;>
    cases hac : (turnToolCalls cfg n b).isEmpty <;>
      simp [List.countP_cons, isErrorFrame, List.countP_nil]

/-- C6: when a dispatched tool handler throws, the round converts the
error to its string form, appends it as the tool-result history item,
writes it as injectHistory, writes no error frame, keeps looping, and the
item is part of the message list the model sees on the next round. -/
theorem toolExecutionError_feedback (cfg : ChatConfig) (n : Nat) (b : TurnBehavior)
    (tc : ToolCallInfo) (e : String) (st : ChatState)
    (hse : b.streamError = none)
    (hmem : tc ∈ turnToolCalls cfg n b)
    (herr : cfg.tools tc.name (parsedArgsOf cfg.parseArgs tc.args) = Except.error e) :
    (turnOutput cfg n b).keepLooping = true ∧
    toolHistoryItem tc e ∈ (turnOutput cfg n b).newTail ∧
    SSEvent.injectHistory (toolHistoryItem tc e) ∈ (turnOutput cfg n b).events ∧
    countErrorEvents (turnOutput cfg n b).events = 0 ∧
    toolHistoryItem tc e ∈ cfg.trimmedMessages ++ ((runTurn cfg n b st).1).tailMessages := by
  have hone2 : (runOneCall cfg.parseArgs cfg.tools tc).2 = toolHistoryItem tc e := by
    simp [runOneCall, herr]
  have hone1 : SSEvent.injectHistory (toolHistoryItem tc e) ∈
      (runOneCall cfg.parseArgs cfg.tools tc).1 := by
    simp [runOneCall, herr]
  have hitem : toolHistoryItem tc e ∈
      (runCalls cfg.parseArgs cfg.tools (turnToolCalls cfg n b)).2 :=
    hone2 ▸ runCalls_item_mem cfg.parseArgs cfg.tools _ tc hmem
  have hev : SSEvent.injectHistory (toolHistoryItem tc e) ∈
      (runCalls cfg.parseArgs cfg.tools (turnToolCalls cfg n b)).1 :=
    runCalls_events_mem cfg.parseArgs cfg.tools _ tc hmem _ hone1
  have hne : (turnToolCalls cfg n b).isEmpty = false := by
    cases hl : turnToolCalls cfg n b with
    | nil => rw [hl] at hmem; cases hmem
    | cons a l => rfl
  have hkeep : (turnOutput cfg n b).keepLooping = true := by
    simp only [turnOutput, hse, hne]
    rfl
  have htail : toolHistoryItem tc e ∈ (turnOutput cfg n b).newTail := by
    simp only [turnOutput, hse]
    exact List.mem_append_left _ (List.mem_append_right _ hitem)
  refine ⟨hkeep, htail, ?_, turnOutput_countError_eq_zero cfg n b hse, ?_⟩
  · simp only [turnOutput, hse]
    exact List.mem_append_left _ (List.mem_append_right _ hev)
  · show toolHistoryItem tc e ∈
      cfg.trimmedMessages ++ (st.tailMessages ++ (turnOutput cfg n b).newTail)
    exact List.mem_append_right _ (List.mem_append_right _ htail)

/-- C6 witness: the feedback behaviour at a concrete throwing tool. -/
theorem toolExecutionError_feedback_witness :
    (nativeCallTurn.streamError = none ∧
     nativeCallInfo ∈ turnToolCalls chatCfgToolThrows 5 nativeCallTurn ∧
     chatCfgToolThrows.tools nativeCallInfo.name
       (parsedArgsOf chatCfgToolThrows.parseArgs nativeCallInfo.args) =
       Except.error "Error: kaboom") ∧
    ((turnOutput chatCfgToolThrows 5 nativeCallTurn).keepLooping = true ∧
     toolHistoryItem nativeCallInfo "Error: kaboom" ∈
       (turnOutput chatCfgToolThrows 5 nativeCallTurn).newTail ∧
     SSEvent.injectHistory (toolHistoryItem nativeCallInfo "Error: kaboom") ∈
       (turnOutput chatCfgToolThrows 5 nativeCallTurn).events ∧
     countErrorEvents (turnOutput chatCfgToolThrows 5 nativeCallTurn).events = 0 ∧
     toolHistoryItem nativeCallInfo "Error: kaboom" ∈
       chatCfgToolThrows.trimmedMessages ++
         ((runTurn chatCfgToolThrows 5 nativeCallTurn ⟨[], [], []⟩).1).tailMessages) :=
  ⟨⟨rfl, by decide, rfl⟩,
   toolExecutionError_feedback chatCfgToolThrows 5 nativeCallTurn nativeCallInfo
     "Error: kaboom" ⟨[], [], []⟩ rfl (by decide) rfl⟩

/-- any over a mapped list tests the composed predicate. -/
theorem any_map_general {a b : Type} (f : a → b) (l : List a) (p : b → Bool) :
    (l.map f).any p = l.any (fun x => p (f x)) := by
  induction l with
  | nil => rfl
  | cons hd tl ih => simp [List.any_cons, ih]

/-- Re-running one day against a storage that now contains everything the
first run uploaded (and no less below the visited offsets) skips every
offset the first run visited and uploads nothing. -/
theorem crunchDayLoop_idem :
    ∀ (fuel : Nat) (E E2 : Nat → Bool) (n o : Nat) (ups : List (Nat × Nat)),
      crunchDayLoop E n fuel o = some ups →
      (∀ x, o ≤ x → E2 x = (E x || ups.any (fun u => u.1 == x))) →
      crunchDayLoop E2 n fuel o = some [] := by
  intro fuel
  induction fuel with
  | zero =>
    intro E E2 n o ups h hE2
    simp [crunchDayLoop] at h
  | succ f ih =>
    intro E E2 n o ups h hE2
    rw [crunchDayLoop] at h
    rw [crunchDayLoop]
    by_cases hEo : E o = true
    · rw [if_pos hEo] at h
      have hE2o : E2 o = true := by rw [hE2 o le_rfl, hEo, Bool.true_or]
      rw [if_pos hE2o]
      exact ih E E2 n (o + pageCacheCrunchingBatchSize) ups h
        (fun x hx => hE2 x (le_trans (Nat.le_add_right o _) hx))
    · rw [if_neg hEo] at h
      have hEo' : E o = false := by
        cases hEo2 : E o
        · rfl
        · exact absurd hEo2 hEo
      by_cases hon : o < n
      · rw [if_pos hon] at h
        rcases Option.map_eq_some'.mp h with ⟨ups', hrec, hups⟩
        have hE2o : E2 o = true := by
          rw [hE2 o le_rfl, hEo', ← hups]
          simp
        rw [if_pos hE2o]
        refine ih E E2 n (o + pageCacheCrunchingBatchSize) ups' hrec ?_
        intro x hx
        have hxo : (o == x) = false := by
          refine beq_eq_false_iff_ne.mpr ?_
          have : 0 < pageCacheCrunchingBatchSize := by decide
          omega
        rw [hE2 x (le_trans (Nat.le_add_right o _) hx), ← hups]
        simp [hxo]
      · rw [if_neg hon] at h
        injection h with h
        have hE2o : E2 o = false := by
          rw [hE2 o le_rfl, hEo', ← h]
          simp
        rw [if_neg (by rw [hE2o]; exact Bool.false_ne_true), if_neg hon]

/-- Every upload of a run belongs to one of the iterated days. -/
theorem iterPageCacheCrunching_mem_fst :
    ∀ (days : List (String × Nat)) (E : String → Nat → Bool) (fuel : Nat)
      (ups : List (String × Nat × Nat)),
      iterPageCacheCrunching E days fuel = some ups →
      ∀ p ∈ ups, p.1 ∈ days.map Prod.fst := by
  intro days
  induction days with
  | nil =>
    intro E fuel ups h p hp
    rw [iterPageCacheCrunching] at h
    injection h with h
    rw [← h] at hp
    cases hp
  | cons dn rest ih =>
    intro E fuel ups h p hp
    obtain ⟨d, n⟩ := dn
    rw [iterPageCacheCrunching] at h
    cases h1 : crunchDayLoop (E d) n fuel 0 <;> rw [h1] at h
    · exact absurd h (by simp)
    case some upsD =>
    cases h2 : iterPageCacheCrunching E rest fuel <;> rw [h2] at h
    · exact absurd h (by simp)
    case some upsR =>
    injection h with h
    rw [← h] at hp
    rcases List.mem_append.mp hp with hp | hp
    · rcases List.mem_map.mp hp with ⟨u, _, hu⟩
      rw [← hu]
      simp
    · simp only [List.map_cons]
      exact List.mem_cons_of_mem _ (ih E fuel upsR h2 p hp)

/-- Re-running a whole window against a storage extended by exactly the
first run's uploads uploads nothing, day names being pairwise distinct. -/
theorem iterPageCacheCrunching_idem_aux :
    ∀ (days : List (String × Nat)) (E E2 : String → Nat → Bool) (fuel : Nat)
      (ups : List (String × Nat × Nat)),
      (days.map Prod.fst).Nodup →
      iterPageCacheCrunching E days fuel = some ups →
      (∀ d o, d ∈ days.map Prod.fst →
        E2 d o = (E d o || ups.any (fun u => u.1 == d && u.2.1 == o))) →
      iterPageCacheCrunching E2 days fuel = some [] := by
  intro days
  induction days with
  | nil => intro E E2 fuel ups _ _ _; rfl
  | cons dn rest ih =>
    intro E E2 fuel ups hnd h hE2
    obtain ⟨d, n⟩ := dn
    rw [iterPageCacheCrunching] at h
    cases h1 : crunchDayLoop (E d) n fuel 0 <;> rw [h1] at h
    · exact absurd h (by simp)
    case some upsD =>
    cases h2 : iterPageCacheCrunching E rest fuel <;> rw [h2] at h
    · exact absurd h (by simp)
    case some upsR =>
    injection h with h
    have hnotin : d ∉ rest.map Prod.fst := by
      rw [List.map_cons] at hnd
      exact (List.nodup_cons.mp hnd).1
    have hrest_nd : (rest.map Prod.fst).Nodup := by
      rw [List.map_cons] at hnd
      exact (List.nodup_cons.mp hnd).2
    have hupsR_fst : ∀ p ∈ upsR, p.1 ∈ rest.map Prod.fst :=
      iterPageCacheCrunching_mem_fst rest E fuel upsR h2
    have hday : ∀ x, (0 : Nat) ≤ x → E2 d x = (E d x || upsD.any (fun u => u.1 == x)) := by
      intro x _
      rw [hE2 d x (by simp), ← h]
      have hmapany : ((upsD.map (fun u => (d, u))).any
          (fun u => u.1 == d && u.2.1 == x)) = upsD.any (fun u => u.1 == x) := by
        rw [any_map_general]
        congr 1
        funext u
        simp
      have hupsRany : (upsR.any (fun u => u.1 == d && u.2.1 == x)) = false := by
        rw [List.any_eq_false]
        intro p hp
        have hne : p.1 ≠ d := fun hcontra => hnotin (hcontra ▸ hupsR_fst p hp)
        simp [beq_eq_false_iff_ne.mpr hne]
      rw [List.any_append, hmapany, hupsRany, Bool.or_false]
    have hday2 := crunchDayLoop_idem fuel (E d) (E2 d) n 0 upsD h1 hday
    have hrest : ∀ d' o, d' ∈ rest.map Prod.fst →
        E2 d' o = (E d' o || upsR.any (fun u => u.1 == d' && u.2.1 == o)) := by
      intro d' o hd'
      rw [hE2 d' o (by simp [hd']), ← h]
      have hne : d ≠ d' := fun hcontra => hnotin (hcontra ▸ hd')
      have hmapany : ((upsD.map (fun u => (d, u))).any
          (fun u => u.1 == d' && u.2.1 == o)) = false := by
        rw [any_map_general, List.any_eq_false]
        intro u _
        simp [beq_eq_false_iff_ne.mpr hne]
      rw [List.any_append, hmapany, Bool.false_or]
    have hrest2 := ih E E2 fuel upsR hrest_nd h2 hrest
    rw [iterPageCacheCrunching, hday2, hrest2]
    rfl

/-- C7: if one cruncher run over a window yields the uploads ups, then a
second run over the same window, against the object storage extended by
exactly those uploads, skips every already-produced (day, offset) target
and uploads nothing. -/
theorem iterPageCacheCrunching_idempotent (E : String → Nat → Bool)
    (days : List (String × Nat)) (fuel : Nat) (ups : List (String × Nat × Nat))
    (hnd : (days.map Prod.fst).Nodup)
    (h : iterPageCacheCrunching E days fuel = some ups) :
    iterPageCacheCrunching
      (fun d o => E d o || ups.any (fun u => u.1 == d && u.2.1 == o))
      days fuel = some [] :=
  iterPageCacheCrunching_idem_aux days E _ fuel ups hnd h (fun _ _ _ => rfl)

/-- C7 witness: a one-day window with three records, run then re-run. -/
theorem iterPageCacheCrunching_idempotent_witness :
    (((([("2024-03-05", 3)] : List (String × Nat)).map Prod.fst).Nodup ∧
      iterPageCacheCrunching (fun _ _ => false) [("2024-03-05", 3)] 2 =
        some [("2024-03-05", 0, 3)])) ∧
    iterPageCacheCrunching
      (fun d o => (fun _ _ => false : String → Nat → Bool) d o ||
        [("2024-03-05", 0, 3)].any (fun u => u.1 == d && u.2.1 == o))
      [("2024-03-05", 3)] 2 = some [] :=
  ⟨⟨by decide, by decide⟩,
   iterPageCacheCrunching_idempotent (fun _ _ => false) [("2024-03-05", 3)] 2
     [("2024-03-05", 0, 3)] (by decide) (by decide)⟩

/-- Prepending the empty string is the identity. -/
theorem string_empty_append (s : String) : "" ++ s = s := by
  cases s
  rfl

/-- A non-string chunk never forms an adjacent string pair with whatever
follows. -/
theorem noAdjacentStr_cons_url (u : JsURL) (l : List PromptChunk) :
    noAdjacentStr (PromptChunk.url u :: l) = noAdjacentStr l := rfl

/-- A non-string chunk never forms an adjacent string pair with whatever
follows (bytes case). -/
theorem noAdjacentStr_cons_bytes (b : String) (l : List PromptChunk) :
    noAdjacentStr (PromptChunk.bytes b :: l) = noAdjacentStr l := rfl

/-- A string followed by a URL chunk steps to the tail. -/
theorem noAdjacentStr_str_url (s : String) (u : JsURL) (l : List PromptChunk) :
    noAdjacentStr (PromptChunk.str s :: PromptChunk.url u :: l) =
      noAdjacentStr (PromptChunk.url u :: l) := rfl

/-- A string followed by a bytes chunk steps to the tail. -/
theorem noAdjacentStr_str_bytes (s b : String) (l : List PromptChunk) :
    noAdjacentStr (PromptChunk.str s :: PromptChunk.bytes b :: l) =
      noAdjacentStr (PromptChunk.bytes b :: l) := rfl

/-- The merge pass never leaves two adjacent strings, whatever the
accumulated tempString is. -/
theorem mergeChunks_noAdjacent :
    ∀ (cs : List PromptChunk) (temp : String),
      noAdjacentStr (mergeChunks cs temp) = true := by
  intro cs
  induction cs with
  | nil =>
    intro temp
    by_cases h : temp = ""
    · simp [mergeChunks, h, noAdjacentStr]
    · simp [mergeChunks, h, noAdjacentStr]
  | cons c rest ih =>
    intro temp
    cases c with
    | str s =>
      simpa [mergeChunks] using ih (temp ++ s)
    | url u =>
      by_cases h : temp = ""
      · simpa [mergeChunks, h, noAdjacentStr_cons_url] using ih ""
      · simp only [mergeChunks, if_neg h, List.singleton_append]
        rw [noAdjacentStr_str_url, noAdjacentStr_cons_url]
        exact ih ""
    | bytes b =>
      by_cases h : temp = ""
      · simpa [mergeChunks, h, noAdjacentStr_cons_bytes] using ih ""
      · simp only [mergeChunks, if_neg h, List.singleton_append]
        rw [noAdjacentStr_str_bytes, noAdjacentStr_cons_bytes]
        exact ih ""

/-- C9: on input with no image token the scan finds nothing, so
expandMarkdown returns the input as the single (string) chunk — empty
input gives the empty list — and, on any input, the merge pass leaves no
two adjacent string chunks. -/
theorem expandMarkdown_no_image_tokens :
    (∀ (parseURL : String → Option JsURL) (decodeURIFn encodeURIFn : String → String)
       (files : String → Option String) (input : String),
       findMatch input.toList = none →
       expandMarkdown parseURL decodeURIFn encodeURIFn files input =
         if input = "" then [] else [PromptChunk.str input]) ∧
    (∀ (cs : List PromptChunk) (temp : String),
       noAdjacentStr (mergeChunks cs temp) = true) := by
  refine ⟨?_, mergeChunks_noAdjacent⟩
  intro pu de en files input h
  obtain ⟨data⟩ := input
  unfold expandMarkdown
  rw [scanPieces]
  rw [show (String.mk data).toList = data from rfl] at h ⊢
  rw [h]
  cases data with
  | nil => rfl
  | cons c cs =>
    have hne : String.mk (c :: cs) ≠ "" := by
      intro hc
      have hdata : (String.mk (c :: cs)).data = ("" : String).data := congrArg String.data hc
      simp at hdata
    simp only [List.isEmpty_cons, Bool.false_eq_true, if_false, List.flatMap_cons,
      List.flatMap_nil, List.append_nil, mergeChunks]
    rw [string_empty_append, if_neg hne]

/-- C9 witness: a concrete token-free input round-trips as one string
chunk. -/
theorem expandMarkdown_no_image_tokens_witness :
    findMatch ("The title is: Example Domain." : String).toList = none ∧
    expandMarkdown (fun _ => none) id id (fun _ => none) "The title is: Example Domain." =
      (if ("The title is: Example Domain." : String) = "" then []
       else [PromptChunk.str "The title is: Example Domain."]) :=
  ⟨by decide,
   (expandMarkdown_no_image_tokens).1 (fun _ => none) id id (fun _ => none)
     "The title is: Example Domain." (by decide)⟩
